import Mathlib

/-!
# unixsock: a UNIX domain socket server (Go) and its one-shot client

Shallow embedding of `unixsock.go`.

* The operating system is a `World`: the filesystem entries by path, and the
  log of the calls made so far (oldest first).  What a call answers (whether a
  connect attempt goes through, whether a file can be read, whether a bind
  works, what a read on a connection yields) is not decided by the program, so
  every function takes those answers as arguments.
* `Server` carries the six fields of the Go struct.  A `nil` callback, a `nil`
  listener and a `nil` channel are `none`.
* A goroutine is a function of its own; `go f()` is recorded in the log.
  A method call on a `nil` interface or a call of a `nil` func is a `panic`.
-/

set_option linter.dupNamespace false

namespace unixsock

/-! ## Values -/

/-- One element of a Go `[]byte`. -/
abbrev Byte := Fin 256

/-- Go `error` values met by the program: the sentinel `io.EOF`, an error made
by `fmt.Errorf`, and an error handed back by the `net`, `os` or `ioutil`
packages. -/
inductive Error
  | EOF
  | errorf (msg : String)
  | sys (msg : String)
  deriving DecidableEq, Repr

/-- The method `Error()` of a Go error: its text. -/
def Error.Error : Error → String
  | .EOF => "EOF"
  | .errorf m => m
  | .sys m => m

/-- Handle of a `net.Listener`. -/
abbrev Listener := Nat

/-- Handle of an accepted `net.Conn`. -/
abbrev ConnId := Nat

/-! ## Library functions on strings -/

/-- Scan for `substr` from offset `i` on: the offset of the first match, or `-1`. -/
def strings.indexFrom (substr : List Char) : List Char → Nat → Int
  | [], i => if substr = [] then (i : Int) else -1
  | c :: cs, i =>
    if substr.isPrefixOf (c :: cs) then (i : Int) else strings.indexFrom substr cs (i + 1)

/-- Go `strings.Index(s, substr)`: offset of the first instance of `substr` in
`s`, or `-1` when there is none. -/
def strings.Index (s substr : String) : Int :=
  strings.indexFrom substr.toList s.toList 0

/-- Go `filepath.Split(path)`: cut right after the last `/`; `dir ++ file = path`. -/
def filepath.Split (path : String) : String × String :=
  let cs := path.toList
  let file := (cs.reverse.takeWhile (fun c => c != '/')).reverse
  (String.mk (cs.take (cs.length - file.length)), String.mk file)

/-! ## The operating system -/

/-- What sits at a path. -/
inductive Node
  | file (data : List Byte)
  | socket
  | dir
  deriving DecidableEq, Repr

/-- The three goroutines the program starts. -/
inductive Goroutine
  | monitor
  | accept
  | handler (conn : ConnId)
  deriving DecidableEq, Repr

/-- A call that leaves the program. -/
inductive Call
  | Dial (path : String)
  | ConnClose
  | ReadFile (path : String)
  | Remove (path : String)
  | MkdirAll (dir : String) (perm : Nat)
  | Listen (path : String)
  | Stat (path : String)
  | ListenerClose (l : Listener)
  | Accept (l : Listener)
  | Go (g : Goroutine)
  deriving DecidableEq, Repr

/-- The filesystem: at most one node per path (the first pair with the path counts). -/
abbrev FS := List (String × Node)

/-- The node at path `p`, if any. -/
def lookupPath (fs : FS) (p : String) : Option Node :=
  (fs.find? (fun e => e.1 == p)).map Prod.snd

/-- The filesystem without the entry at `p`. -/
def removePath (fs : FS) (p : String) : FS :=
  fs.filter (fun e => e.1 != p)

/-- The filesystem with node `n` at `p`. -/
def insertPath (fs : FS) (p : String) (n : Node) : FS :=
  (p, n) :: removePath fs p

/-- The world outside the program. -/
structure World where
  fs : FS
  log : List Call
  deriving DecidableEq, Repr

/-- Append a call to the log. -/
def World.record (w : World) (c : Call) : World :=
  { w with log := w.log ++ [c] }

/-- Go `net.Dial("unix", path)`; `res` is the answer: `none` for a connection,
`some msg` for a failure whose error text is `msg`. -/
def net.Dial (path : String) (res : Option String) (w : World) : Option Error × World :=
  (res.map Error.sys, w.record (Call.Dial path))

/-- Go `ioutil.ReadFile(path)`; `res` is the answer. -/
def ioutil.ReadFile (path : String) (res : Except String (List Byte)) (w : World) :
    Except Error (List Byte) × World :=
  (res.mapError Error.sys, w.record (Call.ReadFile path))

/-- Is there an entry below `p`, that is at a path that starts with `p/`? -/
def hasChild (fs : FS) (p : String) : Bool :=
  fs.any (fun e => (p ++ "/").toList.isPrefixOf e.1.toList)

/-- Is the entry at `p` a directory with something in it? -/
def nonEmptyDir (fs : FS) (p : String) : Bool :=
  lookupPath fs p == some Node.dir && hasChild fs p

/-- Go `os.Remove(path)`: deletes the file, socket or empty directory at the
path.  It fails, and leaves the filesystem as it is, on a directory that is not
empty; it fails as well when nothing is at the path.  (Permissions are not part
of the world.) -/
def os.Remove (path : String) (w : World) : Option Error × World :=
  if nonEmptyDir w.fs path then
    (some (Error.sys ("remove " ++ path ++ ": directory not empty")),
      w.record (Call.Remove path))
  else
    (if (lookupPath w.fs path).isNone then
        some (Error.sys ("remove " ++ path ++ ": no such file or directory"))
      else none,
      { fs := removePath w.fs path, log := w.log ++ [Call.Remove path] })

/-- Go `os.Stat(path)`: succeeds exactly when there is an entry at the path. -/
def os.Stat (path : String) (w : World) : Option Error × World :=
  (if (lookupPath w.fs path).isNone then some (Error.sys ("stat " ++ path ++ ": no such file or directory"))
   else none,
   w.record (Call.Stat path))

/-- The directories `os.MkdirAll(dir, _)` walks through: every prefix of `dir`
that ends right before a `/`, shortest first, and `dir` itself when it does not
end in `/`. -/
def os.ancestors (dir : String) : List String :=
  let cs := dir.toList
  ((List.range (cs.length + 1)).filter (fun i =>
      0 < i ∧ (i = cs.length ∨ cs.get? i = some '/') ∧ cs.get? (i - 1) ≠ some '/')).map
    (fun i => String.mk (cs.take i))

/-- Create the directories of the list in turn; stop at the first one whose
path is taken by something that is no directory. -/
def os.mkdirs : List String → FS → FS
  | [], fs => fs
  | d :: ds, fs =>
    match lookupPath fs d with
    | none => os.mkdirs ds ((d, Node.dir) :: fs)
    | some Node.dir => os.mkdirs ds fs
    | some _ => fs

/-- Go `os.MkdirAll(dir, perm)`: creates `dir` and the missing parents (the
program ignores its error). -/
def os.MkdirAll (dir : String) (perm : Nat) (w : World) : World :=
  { fs := os.mkdirs (os.ancestors dir) w.fs, log := w.log ++ [Call.MkdirAll dir perm] }

/-- Go `net.Listen("unix", path)`; `res` is the answer: a listener (the bind
creates the socket node at `path`) or the error text.  In Go the listener
returned with an error is `nil`. -/
def net.Listen (path : String) (res : Except String Listener) (w : World) :
    Except Error Listener × World :=
  match res with
  | .ok l => (.ok l, { fs := insertPath w.fs path Node.socket, log := w.log ++ [Call.Listen path] })
  | .error msg => (.error (Error.sys msg), w.record (Call.Listen path))

/-! ## The server -/

/-- Go `chan error` with a buffer of one element. -/
structure Chan where
  buf : List (Option Error)
  deriving DecidableEq, Repr

/-- The struct `Server`.  `Success` maps the received bytes to the writes the
callback makes on the connection it is given. -/
structure Server where
  SocketFile : String
  Failed : Option (Error → Unit)
  Success : Option (List Byte → List (List Byte))
  listen : Option Listener
  end_ : Bool
  err : Option Chan

/-- `Close`: set the end flag and remove the socket file (error ignored). -/
def Server.Close (sock : Server) (w : World) : Server × World :=
  ({ sock with end_ := true }, (os.Remove sock.SocketFile w).2)

/-- `Check`: is the socket file free to bind?  `dial` and `readFile` are the
answers of the two calls it may make. -/
def Server.Check (sock : Server) (dial : Option String) (readFile : Except String (List Byte))
    (w : World) : Option Error × World :=
  let (err, w1) := net.Dial sock.SocketFile dial w
  match err with
  | none =>
    (some (Error.errorf ("already in use '" ++ sock.SocketFile ++ "'")), w1.record Call.ConnClose)
  | some e =>
    let idx := strings.Index e.Error "connection refused"
    if idx != -1 then
      let (r, w2) := ioutil.ReadFile sock.SocketFile readFile w1
      match r with
      | .ok _ => (some (Error.errorf ("already in use '" ++ sock.SocketFile ++ "'")), w2)
      | .error _ => (none, (os.Remove sock.SocketFile w2).2)
    else
      (none, w1)

/-- The answers of the calls `Run` makes before it blocks. -/
structure Env where
  dial : Option String
  readFile : Except String (List Byte)
  listen : Except String Listener

/-- How the part of `Run` before `<-sock.err` ends. -/
inductive RunResult
  | ret (err : Error)
  | waiting (deferred : Listener)
  deriving DecidableEq, Repr

/-- `Run` up to the receive on the error channel: the three configuration
checks, `Check`, the split of the path, `MkdirAll`, `Listen`, the deferred
close of the listener and the launch of the two goroutines. -/
def Server.Run (sock : Server) (env : Env) (w : World) : RunResult × Server × World :=
  let sock := { sock with err := some ⟨[]⟩ }
  if sock.Failed.isNone then
    (.ret (Error.errorf "Failed() function undefiend"), sock, w)
  else if sock.Success.isNone then
    (.ret (Error.errorf "Success() function undefined"), sock, w)
  else if sock.SocketFile == "" then
    (.ret (Error.errorf "SocketFile is nil"), sock, w)
  else
    match sock.Check env.dial env.readFile w with
    | (some err, w1) => (.ret err, sock, w1)
    | (none, w1) =>
      let (dir, file) := filepath.Split sock.SocketFile
      if file == "" then
        (.ret (Error.errorf "SocketFile is invalid value"), sock, w1)
      else
        let w2 := if dir != "" then os.MkdirAll dir 0o755 w1 else w1
        match net.Listen sock.SocketFile env.listen w2 with
        | (.error lerr, w3) => (.ret lerr, { sock with listen := none }, w3)
        | (.ok l, w3) =>
          (.waiting l, { sock with listen := some l },
            (w3.record (Call.Go Goroutine.monitor)).record (Call.Go Goroutine.accept))

/-- The receive `<-sock.err` at the end of `Run`, with the deferred close of
the listener bound at startup: `none` while the channel is empty. -/
def Server.receive (sock : Server) (deferred : Listener) (w : World) :
    Option (Option Error × Server × World) :=
  match sock.err with
  | some ⟨v :: rest⟩ =>
    some (v, { sock with err := some ⟨rest⟩ }, w.record (Call.ListenerClose deferred))
  | _ => none

/-! ## The path monitor -/

/-- How one pass through the body of a `for` loop ends. -/
inductive Step
  | continue_
  | ret (err : Option Error)
  | panic
  deriving DecidableEq, Repr

/-- One tick of `sockFileMonitor`; `listen` is the answer of `net.Listen`
should the tick call it. -/
def Server.monitorTick (sock : Server) (listen : Except String Listener) (w : World) :
    Step × Server × World :=
  if sock.end_ then
    (.ret none, sock, w)
  else
    let (err, w1) := os.Stat sock.SocketFile w
    if err.isNone then
      (.continue_, sock, w1)
    else
      let (dir, file) := filepath.Split sock.SocketFile
      if file == "" then
        (.ret (some (Error.errorf "SocketFile is invalid value")), sock, w1)
      else
        let w2 := if dir != "" then os.MkdirAll dir 0o755 w1 else w1
        match sock.listen with
        | none => (.panic, sock, w2)
        | some old =>
          let w3 := w2.record (Call.ListenerClose old)
          match net.Listen sock.SocketFile listen w3 with
          | (.error e, w4) => (.ret (some e), { sock with listen := none }, w4)
          | (.ok l, w4) => (.continue_, { sock with listen := some l }, w4)

/-- How a goroutine stands once the answers it was given are used up. -/
inductive Status
  | done
  | panic
  | blocked
  deriving DecidableEq, Repr

/-- `sockFileMonitor`: tick after tick, one `net.Listen` answer per tick.
`none` when the ticks given run out with the loop still going. -/
def Server.sockFileMonitor (sock : Server) :
    List (Except String Listener) → World → Option (Option Error) × Status × Server × World
  | [], w => (none, .blocked, sock, w)
  | t :: ts, w =>
    match sock.monitorTick t w with
    | (.continue_, s1, w1) => Server.sockFileMonitor s1 ts w1
    | (.ret err, s1, w1) => (some err, .done, s1, w1)
    | (.panic, s1, w1) => (none, .panic, s1, w1)

/-- The goroutine `Run` starts around the monitor:
`lerr = sock.sockFileMonitor(); sock.listen.Close(); sock.err <- lerr`. -/
def Server.monitorGoroutine (sock : Server) (ticks : List (Except String Listener)) (w : World) :
    Status × Server × World :=
  match sock.sockFileMonitor ticks w with
  | (some lerr, .done, s1, w1) =>
    match s1.listen with
    | none => (.panic, s1, w1)
    | some l =>
      let w2 := w1.record (Call.ListenerClose l)
      match s1.err with
      | some ⟨[]⟩ => (.done, { s1 with err := some ⟨[lerr]⟩ }, w2)
      | _ => (.blocked, s1, w2)
  | (_, st, s1, w1) => (st, s1, w1)

/-! ## The accept loop -/

/-- How one pass through the accept loop ends. -/
inductive LoopStep
  | break_
  | continue_
  | panic
  deriving DecidableEq, Repr

/-- One pass through the accept loop; `accept` is the answer of
`sock.listen.Accept()` should the pass call it. -/
def Server.acceptIter (sock : Server) (accept : Except String ConnId) (w : World) :
    LoopStep × World :=
  if sock.end_ then
    (.break_, w)
  else
    match sock.listen with
    | none => (.panic, w)
    | some l =>
      let w1 := w.record (Call.Accept l)
      match accept with
      | .error _ => (.continue_, w1)
      | .ok conn => (.continue_, w1.record (Call.Go (Goroutine.handler conn)))

/-- The accept loop, one `Accept` answer per pass. -/
def Server.acceptLoop (sock : Server) : List (Except String ConnId) → World → Status × World
  | [], w => if sock.end_ then (.done, w) else (.blocked, w)
  | a :: as, w =>
    match sock.acceptIter a w with
    | (.break_, w1) => (.done, w1)
    | (.continue_, w1) => Server.acceptLoop sock as w1
    | (.panic, w1) => (.panic, w1)

/-! ## The connection handler and the client -/

/-- One answer of `conn.Read(buf)`: the bytes `buf[:n]` and the error. -/
structure ReadResult where
  data : List Byte
  err : Option Error
  deriving DecidableEq, Repr

/-- What happens on one connection, in order. -/
inductive Event
  | Dial (path : String)
  | Failed (err : Error)
  | Success (data : List Byte)
  | Write (data : List Byte)
  | CloseWrite
  | Close
  deriving DecidableEq, Repr

/-- The read loop shared by the handler and by `Send`: append `buf[:n]` until a
read comes back with an error; the bytes of that last read are dropped.
`none` when the answers run out first (the read never returns). -/
def readLoop : List ReadResult → List Byte → Option (List Byte × Error)
  | [], _ => none
  | r :: rs, data =>
    match r.err with
    | some e => some (data, e)
    | none => readLoop rs (data ++ r.data)

/-- The goroutine started for an accepted connection; `reads` are the answers
of its successive `conn.Read` calls.  `defer conn.Close()` runs last, also on a
panic. -/
def Server.handler (sock : Server) (reads : List ReadResult) : Status × List Event :=
  match readLoop reads [] with
  | none => (.blocked, [])
  | some (data, err) =>
    let success (evs : List Event) : Status × List Event :=
      match sock.Success with
      | none => (.panic, evs ++ [Event.Close])
      | some f => (.done, evs ++ [Event.Success data] ++ (f data).map Event.Write ++ [Event.Close])
    if err != Error.EOF then
      match sock.Failed with
      | none => (.panic, [Event.Close])
      | some _ => success [Event.Failed err]
    else
      success []

/-- The answers of the calls `Send` makes. -/
structure SendEnv where
  dial : Option String
  write : Option String
  isUnixConn : Bool
  closeWrite : Option String
  reads : List ReadResult

/-- `Send`: connect, write the message, close the write side, read the reply
until end-of-stream.  A Go string is a sequence of bytes, so `string(data)` is
`data`.  `none` when a read never returns. -/
def Send (sockfile : String) (message : List Byte) (env : SendEnv) :
    Option (List Byte × Option Error) × List Event :=
  match env.dial with
  | some msg => (some ([], some (Error.sys msg)), [Event.Dial sockfile])
  | none =>
    match env.write with
    | some msg => (some ([], some (Error.sys msg)), [Event.Dial sockfile, Event.Write message, Event.Close])
    | none =>
      if !env.isUnixConn then
        (some ([], some (Error.errorf "net.UnixConn not type")), [Event.Dial sockfile, Event.Write message, Event.Close])
      else
        match env.closeWrite with
        | some msg =>
          (some ([], some (Error.sys msg)), [Event.Dial sockfile, Event.Write message, Event.CloseWrite, Event.Close])
        | none =>
          match readLoop env.reads [] with
          | none => (none, [Event.Dial sockfile, Event.Write message, Event.CloseWrite])
          | some (data, err) =>
            if err != Error.EOF then
              (some ([], some err), [Event.Dial sockfile, Event.Write message, Event.CloseWrite, Event.Close])
            else
              (some (data, none), [Event.Dial sockfile, Event.Write message, Event.CloseWrite, Event.Close])

/-! ## Vocabulary of the statements -/

/-- The three errors `Run` makes for a missing callback or a missing path. -/
def configErrors : List Error :=
  [Error.errorf "Failed() function undefiend", Error.errorf "Success() function undefined",
   Error.errorf "SocketFile is nil"]

/-- The error `Check` makes when the path is taken. -/
def alreadyInUse (path : String) : Error :=
  Error.errorf ("already in use '" ++ path ++ "'")

/-- The connect attempt failed with an error whose text has `connection refused` in it. -/
def Refused (dial : Option String) : Prop :=
  ∃ msg, dial = some msg ∧ "connection refused".toList <:+: msg.toList

/-- The read of the file came back with data. -/
def Readable (readFile : Except String (List Byte)) : Prop :=
  ∃ data, readFile = .ok data

/-- The calls made since the log was `before`. -/
def newCalls (before after : World) : List Call :=
  after.log.drop before.log.length

/-- What `Run` has checked and set by the time it starts its goroutines: both
callbacks, a path that names a file, and a bound listener. -/
def Server.Running (sock : Server) : Prop :=
  sock.Failed ≠ none ∧ sock.Success ≠ none ∧ sock.SocketFile ≠ "" ∧
    (filepath.Split sock.SocketFile).2 ≠ "" ∧ sock.listen ≠ none

/-- The operations that act on a server and the world around it. -/
inductive Op
  | Run (env : Env)
  | Check (dial : Option String) (readFile : Except String (List Byte))
  | Close
  | monitorTick (listen : Except String Listener)
  | monitorGoroutine (ticks : List (Except String Listener))
  | acceptIter (accept : Except String ConnId)
  | acceptLoop (accepts : List (Except String ConnId))
  | receive (deferred : Listener)

/-- The server and the world after an operation. -/
def Op.apply : Op → Server × World → Server × World
  | .Run env, (sock, w) => (sock.Run env w).2
  | .Check dial readFile, (sock, w) => (sock, (sock.Check dial readFile w).2)
  | .Close, (sock, w) => sock.Close w
  | .monitorTick listen, (sock, w) => (sock.monitorTick listen w).2
  | .monitorGoroutine ticks, (sock, w) => (sock.monitorGoroutine ticks w).2
  | .acceptIter accept, (sock, w) => (sock, (sock.acceptIter accept w).2)
  | .acceptLoop accepts, (sock, w) => (sock, (sock.acceptLoop accepts w).2)
  | .receive deferred, (sock, w) =>
    match sock.receive deferred w with
    | some (_, s1, w1) => (s1, w1)
    | none => (sock, w)

/-- The server and the world after a sequence of operations. -/
def Op.run (ops : List Op) (st : Server × World) : Server × World :=
  ops.foldl (fun st op => op.apply st) st

/-- Is the operation a `Close`? -/
def Op.isClose : Op → Bool
  | .Close => true
  | _ => false

/-- Is the call an `Accept` on a listener or the launch of a connection handler? -/
def Call.isAccept : Call → Bool
  | .Accept _ => true
  | .Go (.handler _) => true
  | _ => false

/-- Is the event a call of `Success`? -/
def Event.isSuccess : Event → Bool
  | .Success _ => true
  | _ => false

/-- Is the event a call of `Failed`? -/
def Event.isFailed : Event → Bool
  | .Failed _ => true
  | _ => false

/-- The world once somebody else has deleted the entry at `path`. -/
def deleted (path : String) (w : World) : World :=
  { w with fs := removePath w.fs path }

/-! ## The server of the repository's test -/

/-- The bytes of `"Hi, data please."`. -/
def hiDataPlease : List Byte :=
  [72, 105, 44, 32, 100, 97, 116, 97, 32, 112, 108, 101, 97, 115, 101, 46]

/-- The bytes of `"Hello!!"`. -/
def hello : List Byte := [72, 101, 108, 108, 111, 33, 33]

/-- A server set up like the one of `Test__SUCCESS_PATERN`, before `Run`: the
path `server.sock`, a `Success` that answers every message with `"Hello!!"`,
and a `Failed` that returns. -/
def testServer : Server :=
  { SocketFile := "server.sock", Failed := some (fun _ => ()), Success := some (fun _ => [hello]),
    listen := none, end_ := false, err := none }

/-- The same server once `Run` has bound listener `1` and started its goroutines. -/
def testServerRunning : Server :=
  { testServer with listen := some 1, err := some ⟨[]⟩ }

/-- A world with nothing at `server.sock`. -/
def emptyWorld : World := { fs := [], log := [] }

/-- A world where a dead socket and a file of somebody else are in place. -/
def staleWorld : World :=
  { fs := [("server.sock", Node.socket), ("notes.txt", Node.file hello)], log := [] }

/-- A world where a directory that is not empty sits at `server.sock`. -/
def dirWorld : World :=
  { fs := [("server.sock", Node.dir), ("server.sock/child", Node.file [])], log := [] }

/-- The text of the error of a connect attempt nobody listens to. -/
def refusedText : String := "dial unix server.sock: connect: connection refused"

/-- Reads that come back without error, one per chunk. -/
def okReads (chunks : List (List Byte)) : List ReadResult :=
  chunks.map (fun c => { data := c, err := none })

/-- The read that reports end-of-stream. -/
def eof : ReadResult := { data := [], err := some Error.EOF }

/-- A read that fails because the peer reset the connection. -/
def reset : ReadResult :=
  { data := [], err := some (Error.sys "read unix server.sock->@: read: connection reset by peer") }

/-- A bind that the system refuses. -/
def bindFails : Except String Listener :=
  .error "listen unix server.sock: bind: permission denied"

/-- The answers `Run` gets on a fresh start: nothing at the path to connect to,
nothing to read, and the bind gives listener `1`. -/
def freshStart : Env :=
  { dial := some "dial unix server.sock: connect: no such file or directory",
    readFile := .error "open server.sock: no such file or directory",
    listen := .ok 1 }

/-! ## Lemmas on the library functions -/

theorem indexFrom_eq_neg_one (substr : List Char) (s : List Char) (i : Nat) :
    strings.indexFrom substr s i = -1 ↔ ¬ substr <:+: s := by
  induction s generalizing i with
  | nil =>
    unfold strings.indexFrom
    by_cases h : substr = []
    · subst h
      simp
    · simp [h]
  | cons c cs ih =>
    unfold strings.indexFrom
    by_cases h : substr.isPrefixOf (c :: cs) = true
    · rw [if_pos h]
      have hp : substr <+: c :: cs := List.isPrefixOf_iff_prefix.mp h
      constructor
      · intro h1
        omega
      · intro h1
        exact absurd hp.isInfix h1
    · rw [if_neg h, ih (i + 1), List.infix_cons_iff]
      have hp : ¬ substr <+: c :: cs := fun hp => h (List.isPrefixOf_iff_prefix.mpr hp)
      tauto

theorem Index_ne_neg_one (s substr : String) :
    strings.Index s substr ≠ -1 ↔ substr.toList <:+: s.toList := by
  unfold strings.Index
  rw [Ne, indexFrom_eq_neg_one, not_not]

theorem lookupPath_removePath (fs : FS) (p q : String) :
    lookupPath (removePath fs p) q = if q = p then none else lookupPath fs q := by
  induction fs with
  | nil => simp [lookupPath, removePath]
  | cons e es ih =>
    unfold lookupPath removePath at *
    by_cases h1 : e.1 = p
    · by_cases h2 : q = p
      · simp_all [List.filter_cons, List.find?_cons]
      · have h3 : ¬ e.1 = q := fun h => h2 (h ▸ h1)
        simp_all [List.filter_cons, List.find?_cons]
    · by_cases h2 : e.1 = q
      · have h3 : ¬ q = p := fun h => h1 (h2 ▸ h)
        simp_all [List.filter_cons, List.find?_cons]
      · simp_all [List.filter_cons, List.find?_cons]

theorem removePath_idem (fs : FS) (p : String) :
    removePath (removePath fs p) p = removePath fs p := by
  simp [removePath, List.filter_filter]

theorem Remove_log (path : String) (w : World) :
    (os.Remove path w).2.log = w.log ++ [Call.Remove path] := by
  unfold os.Remove
  split <;> rfl

theorem Remove_fs (path : String) (w : World) :
    (os.Remove path w).2.fs = if nonEmptyDir w.fs path then w.fs else removePath w.fs path := by
  unfold os.Remove
  split <;> rfl

theorem lookupPath_Remove_ne (path q : String) (w : World) (hq : q ≠ path) :
    lookupPath (os.Remove path w).2.fs q = lookupPath w.fs q := by
  rw [Remove_fs]
  split
  · rfl
  · simp [lookupPath_removePath, hq]

theorem nonEmptyDir_removePath (fs : FS) (p : String) :
    nonEmptyDir (removePath fs p) p = false := by
  simp [nonEmptyDir, lookupPath_removePath]

theorem Check_cases (sock : Server) (dial : Option String)
    (readFile : Except String (List Byte)) (w : World) :
    (dial = none ∧ sock.Check dial readFile w =
        (some (alreadyInUse sock.SocketFile),
          (w.record (Call.Dial sock.SocketFile)).record Call.ConnClose)) ∨
    (Refused dial ∧ Readable readFile ∧ sock.Check dial readFile w =
        (some (alreadyInUse sock.SocketFile),
          (w.record (Call.Dial sock.SocketFile)).record (Call.ReadFile sock.SocketFile))) ∨
    (Refused dial ∧ ¬ Readable readFile ∧ sock.Check dial readFile w =
        (none, (os.Remove sock.SocketFile
          ((w.record (Call.Dial sock.SocketFile)).record (Call.ReadFile sock.SocketFile))).2)) ∨
    (dial ≠ none ∧ ¬ Refused dial ∧ sock.Check dial readFile w =
        (none, w.record (Call.Dial sock.SocketFile))) := by
  cases dial with
  | none => left; simp [Server.Check, net.Dial, alreadyInUse]
  | some msg =>
    right
    by_cases h : strings.Index msg "connection refused" ≠ -1
    · have hr : Refused (some msg) := ⟨msg, rfl, (Index_ne_neg_one _ _).mp h⟩
      cases readFile with
      | ok data =>
        left
        refine ⟨hr, ⟨data, rfl⟩, ?_⟩
        simp [Server.Check, net.Dial, ioutil.ReadFile, alreadyInUse, Error.Error, h, Except.mapError]
      | error e =>
        right; left
        refine ⟨hr, ?_, ?_⟩
        · rintro ⟨d, hd⟩
          cases hd
        · simp [Server.Check, net.Dial, ioutil.ReadFile, Error.Error, h, Except.mapError]
    · right; right
      refine ⟨by simp, ?_, ?_⟩
      · rintro ⟨m, hm, hi⟩
        cases hm
        exact h ((Index_ne_neg_one _ _).mpr hi)
      · rw [not_not] at h
        simp [Server.Check, net.Dial, Error.Error, h]

theorem not_Refused_none : ¬ Refused none := by
  rintro ⟨m, hm, _⟩
  cases hm

/-! ## Check -/

/-- C2: `Check` returns the "already in use" error exactly when the connect
attempt succeeds, or fails with a "connection refused" error while the read of
the path as a plain file succeeds; in every other case it returns nil. -/
theorem Check_already_in_use_iff (sock : Server) (dial : Option String)
    (readFile : Except String (List Byte)) (w : World) :
    ((sock.Check dial readFile w).1 = some (alreadyInUse sock.SocketFile) ↔
      (dial = none ∨ (Refused dial ∧ Readable readFile))) ∧
    ((sock.Check dial readFile w).1 = none ↔
      ¬ (dial = none ∨ (Refused dial ∧ Readable readFile))) := by
  rcases Check_cases sock dial readFile w with
    ⟨hd, h⟩ | ⟨hr, hf, h⟩ | ⟨hr, hf, h⟩ | ⟨hd, hr, h⟩
  · rw [h]
    simp [hd]
  · rw [h]
    simp [hr, hf]
  · rw [h]
    have hd : dial ≠ none := fun hd => not_Refused_none (hd ▸ hr)
    simp [hd, hf]
  · rw [h]
    simp [hd, hr]

/-- C3, as amended: `Check` calls `Remove` on the socket file exactly when the
connect attempt failed with "connection refused" and the read of the file
failed.  The entry at the socket file is then gone, unless it is a directory
that is not empty: that one stays, with the filesystem as it was.  In every
other case (connect succeeded, file readable, any other connect failure) the
filesystem is left as it was.  No other path is removed or changed. -/
theorem Check_removes_only_unreadable (sock : Server) (dial : Option String)
    (readFile : Except String (List Byte)) (w : World) :
    (Call.Remove sock.SocketFile ∈ newCalls w (sock.Check dial readFile w).2 ↔
      (Refused dial ∧ ¬ Readable readFile)) ∧
    (∀ q, Call.Remove q ∈ newCalls w (sock.Check dial readFile w).2 → q = sock.SocketFile) ∧
    ((Refused dial ∧ ¬ Readable readFile) → nonEmptyDir w.fs sock.SocketFile = false →
      (sock.Check dial readFile w).2.fs = removePath w.fs sock.SocketFile ∧
      lookupPath (sock.Check dial readFile w).2.fs sock.SocketFile = none) ∧
    ((Refused dial ∧ ¬ Readable readFile) → nonEmptyDir w.fs sock.SocketFile = true →
      (sock.Check dial readFile w).2.fs = w.fs) ∧
    (¬ (Refused dial ∧ ¬ Readable readFile) → (sock.Check dial readFile w).2.fs = w.fs) ∧
    (∀ q, q ≠ sock.SocketFile →
      lookupPath (sock.Check dial readFile w).2.fs q = lookupPath w.fs q) := by
  rcases Check_cases sock dial readFile w with
    ⟨hd, h⟩ | ⟨hr, hf, h⟩ | ⟨hr, hf, h⟩ | ⟨hd, hr, h⟩
  · rw [h]
    subst hd
    simp [newCalls, World.record, not_Refused_none]
  · rw [h]
    simp [newCalls, World.record, hr, hf]
  · rw [h]
    refine ⟨?_, ?_, ?_, ?_, ?_, ?_⟩
    · simp [newCalls, World.record, Remove_log, hr, hf]
    · intro q
      simp [newCalls, World.record, Remove_log]
    · intro _ hne
      have hfs : (os.Remove sock.SocketFile ((w.record (Call.Dial sock.SocketFile)).record
          (Call.ReadFile sock.SocketFile))).2.fs = removePath w.fs sock.SocketFile := by
        rw [Remove_fs]
        simp [World.record, hne]
      refine ⟨hfs, ?_⟩
      simp only []
      rw [hfs]
      simp [lookupPath_removePath]
    · intro _ hne
      simp only []
      rw [Remove_fs]
      simp [World.record, hne]
    · intro hn
      exact absurd ⟨hr, hf⟩ hn
    · intro q hq
      simp only []
      rw [lookupPath_Remove_ne _ _ _ hq]
      rfl
  · rw [h]
    simp [newCalls, World.record, hr]

/-- Witness of C3: the dead socket of the test server is removed, the file next
to it stays. -/
theorem Check_removes_only_unreadable_witness :
    (Refused (some refusedText) ∧ ¬ Readable (.error "read server.sock: no such device")) ∧
    nonEmptyDir staleWorld.fs testServer.SocketFile = false ∧
    ((testServer.Check (some refusedText) (.error "read server.sock: no such device")
        staleWorld).2.fs = removePath staleWorld.fs testServer.SocketFile ∧
      lookupPath (testServer.Check (some refusedText) (.error "read server.sock: no such device")
        staleWorld).2.fs testServer.SocketFile = none) ∧
    lookupPath (testServer.Check (some refusedText) (.error "read server.sock: no such device")
      staleWorld).2.fs "notes.txt" = lookupPath staleWorld.fs "notes.txt" :=
  have h : Refused (some refusedText) ∧ ¬ Readable (.error "read server.sock: no such device") :=
    ⟨⟨refusedText, rfl, (Index_ne_neg_one _ _).mp (by decide)⟩, fun ⟨_, hd⟩ => by cases hd⟩
  ⟨h, by decide,
    (Check_removes_only_unreadable testServer (some refusedText)
      (.error "read server.sock: no such device") staleWorld).2.2.1 h (by decide),
    (Check_removes_only_unreadable testServer (some refusedText)
      (.error "read server.sock: no such device") staleWorld).2.2.2.2.2 "notes.txt" (by decide)⟩

/-- C3 as first stated fails at a directory `server.sock` that holds
`server.sock/child`: the connect attempt is refused, the read fails, `Check`
calls `Remove` on the path and returns nil, and yet the entry is still there,
the filesystem being what it was. -/
theorem Check_leaves_nonempty_dir :
    (Refused (some refusedText) ∧ ¬ Readable (.error "read server.sock: is a directory")) ∧
    (testServer.Check (some refusedText) (.error "read server.sock: is a directory")
      dirWorld).1 = none ∧
    Call.Remove "server.sock" ∈ newCalls dirWorld
      (testServer.Check (some refusedText) (.error "read server.sock: is a directory")
        dirWorld).2 ∧
    (testServer.Check (some refusedText) (.error "read server.sock: is a directory")
      dirWorld).2.fs = dirWorld.fs ∧
    lookupPath (testServer.Check (some refusedText) (.error "read server.sock: is a directory")
      dirWorld).2.fs "server.sock" = some Node.dir :=
  ⟨⟨⟨refusedText, rfl, (Index_ne_neg_one _ _).mp (by decide)⟩, fun ⟨_, hd⟩ => by cases hd⟩,
    by decide, by decide, by decide, by decide⟩

/-! ## Run -/

theorem alreadyInUse_not_config (p : String) : alreadyInUse p ∉ configErrors := by
  intro h
  have key : ∀ t : String, "already in use '" ++ p ++ "'" = t → t.data.head? = some 'a' := by
    intro t ht
    subst ht
    simp [String.data_append]
  simp only [configErrors, alreadyInUse, List.mem_cons, Error.errorf.injEq, List.mem_singleton,
    List.not_mem_nil, or_false] at h
  rcases h with h | h | h
  · have := key _ h
    simp at this
  · have := key _ h
    simp at this
  · have := key _ h
    simp at this

/-- With both callbacks and the path set, `Run` ends in one of four ways: the
error of `Check`, the error for a path without a file name, the error of
`Listen`, or both goroutines launched. -/
theorem Run_cases (sock : Server) (env : Env) (w : World)
    (hF : sock.Failed ≠ none) (hS : sock.Success ≠ none) (hP : sock.SocketFile ≠ "") :
    (∃ w1, sock.Run env w =
      (.ret (alreadyInUse sock.SocketFile), { sock with err := some ⟨[]⟩ }, w1)) ∨
    ((filepath.Split sock.SocketFile).2 = "" ∧ ∃ w1, sock.Run env w =
      (.ret (Error.errorf "SocketFile is invalid value"), { sock with err := some ⟨[]⟩ }, w1)) ∨
    (∃ msg w1, sock.Run env w =
      (.ret (Error.sys msg), { sock with err := some ⟨[]⟩, listen := none }, w1)) ∨
    ((filepath.Split sock.SocketFile).2 ≠ "" ∧ ∃ (l : Listener) (w1 : World), sock.Run env w =
      (.waiting l, { sock with err := some ⟨[]⟩, listen := some l },
        (w1.record (Call.Go Goroutine.monitor)).record (Call.Go Goroutine.accept))) := by
  rcases sock with ⟨p, F, S, l0, e0, c0⟩
  simp only at hF hS hP ⊢
  obtain ⟨f, hf⟩ := Option.ne_none_iff_exists'.mp hF
  obtain ⟨g, hg⟩ := Option.ne_none_iff_exists'.mp hS
  subst hf hg
  have hc := Check_cases ⟨p, some f, some g, l0, e0, some ⟨[]⟩⟩ env.dial env.readFile w
  simp only at hc
  by_cases hfile : (filepath.Split p).2 = ""
  · rcases hc with ⟨_, h⟩ | ⟨_, _, h⟩ | ⟨_, _, h⟩ | ⟨_, _, h⟩
    · left
      simp [Server.Run, hP, h]
    · left
      simp [Server.Run, hP, h]
    · right; left
      simp [Server.Run, hP, h, hfile]
    · right; left
      simp [Server.Run, hP, h, hfile]
  · rcases hc with ⟨_, h⟩ | ⟨_, _, h⟩ | ⟨_, _, h⟩ | ⟨_, _, h⟩
    · left
      simp [Server.Run, hP, h]
    · left
      simp [Server.Run, hP, h]
    · right; right
      cases hl : env.listen with
      | error msg =>
        left
        simp [Server.Run, hP, h, hfile, hl, net.Listen]
      | ok l =>
        right
        simp [Server.Run, hP, h, hfile, hl, net.Listen]
        exact ⟨_, rfl⟩
    · right; right
      cases hl : env.listen with
      | error msg =>
        left
        simp [Server.Run, hP, h, hfile, hl, net.Listen]
      | ok l =>
        right
        simp [Server.Run, hP, h, hfile, hl, net.Listen]
        exact ⟨_, rfl⟩

/-- With a callback or the path missing, `Run` returns a configuration error
and has touched nothing but its error channel. -/
theorem Run_config_ret (sock : Server) (env : Env) (w : World)
    (h : sock.Failed = none ∨ sock.Success = none ∨ sock.SocketFile = "") :
    ∃ e ∈ configErrors, sock.Run env w = (.ret e, { sock with err := some ⟨[]⟩ }, w) := by
  by_cases hF : sock.Failed = none
  · exact ⟨Error.errorf "Failed() function undefiend", by simp [configErrors],
      by simp [Server.Run, hF]⟩
  obtain ⟨f, hf⟩ := Option.ne_none_iff_exists'.mp hF
  by_cases hS : sock.Success = none
  · exact ⟨Error.errorf "Success() function undefined", by simp [configErrors],
      by simp [Server.Run, hf, hS]⟩
  obtain ⟨g, hg⟩ := Option.ne_none_iff_exists'.mp hS
  have hP : sock.SocketFile = "" := by
    rcases h with h | h | h
    · exact absurd h hF
    · exact absurd h hS
    · exact h
  exact ⟨Error.errorf "SocketFile is nil", by simp [configErrors],
    by simp [Server.Run, hf, hg, hP]⟩

/-- C1: `Run` returns one of its three configuration errors exactly when
`Failed` is nil, `Success` is nil or `SocketFile` is empty; it then returns at
once: the world is as before (no Dial, no file read, no Remove, no MkdirAll, no
Listen, no goroutine started) and the only field written is the error channel. -/
theorem Run_config_error (sock : Server) (env : Env) (w : World) :
    ((∃ e ∈ configErrors, (sock.Run env w).1 = RunResult.ret e) ↔
      (sock.Failed = none ∨ sock.Success = none ∨ sock.SocketFile = "")) ∧
    ((sock.Failed = none ∨ sock.Success = none ∨ sock.SocketFile = "") →
      (sock.Run env w).2.2 = w ∧ (sock.Run env w).2.1 = { sock with err := some ⟨[]⟩ }) := by
  refine ⟨⟨?_, ?_⟩, ?_⟩
  · rintro ⟨e, he, hr⟩
    by_contra hno
    simp only [not_or] at hno
    obtain ⟨hF, hS, hP⟩ := hno
    rcases Run_cases sock env w hF hS hP with
      ⟨w1, h⟩ | ⟨_, w1, h⟩ | ⟨msg, w1, h⟩ | ⟨_, l, w1, h⟩
    · rw [h] at hr
      simp only [RunResult.ret.injEq] at hr
      exact alreadyInUse_not_config _ (hr ▸ he)
    · rw [h] at hr
      simp only [RunResult.ret.injEq] at hr
      subst hr
      simp [configErrors] at he
    · rw [h] at hr
      simp only [RunResult.ret.injEq] at hr
      subst hr
      simp [configErrors] at he
    · rw [h] at hr
      simp at hr
  · intro h
    obtain ⟨e, he, hr⟩ := Run_config_ret sock env w h
    exact ⟨e, he, by rw [hr]⟩
  · intro h
    obtain ⟨e, he, hr⟩ := Run_config_ret sock env w h
    rw [hr]
    exact ⟨rfl, rfl⟩

/-- Witness of C1: the test server without its path returns the error at once. -/
theorem Run_config_error_witness :
    ({ testServer with SocketFile := "" }.Failed = none ∨
      { testServer with SocketFile := "" }.Success = none ∨
      { testServer with SocketFile := "" }.SocketFile = "") ∧
    ({ testServer with SocketFile := "" }.Run freshStart staleWorld).2.2 = staleWorld ∧
    ({ testServer with SocketFile := "" }.Run freshStart staleWorld).2.1 =
      { testServer with SocketFile := "", err := some ⟨[]⟩ } :=
  ⟨Or.inr (Or.inr rfl),
    (Run_config_error { testServer with SocketFile := "" } freshStart staleWorld).2
      (Or.inr (Or.inr rfl))⟩

/-- `Run` starts its goroutines only on a server that is `Running`, with the
listener it bound and an empty error channel. -/
theorem Run_waiting_Running (sock : Server) (env : Env) (w : World) (l : Listener)
    (h : (sock.Run env w).1 = RunResult.waiting l) :
    (sock.Run env w).2.1.Running ∧ (sock.Run env w).2.1.listen = some l ∧
      (sock.Run env w).2.1.err = some ⟨[]⟩ ∧
      (sock.Run env w).2.1.SocketFile = sock.SocketFile ∧
      (sock.Run env w).2.1.end_ = sock.end_ := by
  by_cases hcfg : sock.Failed = none ∨ sock.Success = none ∨ sock.SocketFile = ""
  · obtain ⟨e, _, he⟩ := Run_config_ret sock env w hcfg
    rw [he] at h
    cases h
  · simp only [not_or] at hcfg
    obtain ⟨hF, hS, hP⟩ := hcfg
    rcases Run_cases sock env w hF hS hP with
      ⟨w1, h1⟩ | ⟨_, w1, h1⟩ | ⟨msg, w1, h1⟩ | ⟨hfile, l1, w1, h1⟩
    · rw [h1] at h
      cases h
    · rw [h1] at h
      cases h
    · rw [h1] at h
      cases h
    · rw [h1] at h ⊢
      simp only [RunResult.waiting.injEq] at h
      subst h
      exact ⟨⟨hF, hS, hP, hfile, by simp⟩, rfl, rfl, rfl, rfl⟩

theorem testServerRunning_Running : testServerRunning.Running := by
  refine ⟨?_, ?_, ?_, ?_, ?_⟩
  · simp [testServerRunning, testServer]
  · simp [testServerRunning, testServer]
  · simp [testServerRunning, testServer]
  · simp only [testServerRunning, testServer]
    decide
  · simp [testServerRunning, testServer]

theorem lookupPath_insertPath (fs : FS) (p : String) (n : Node) :
    lookupPath (insertPath fs p n) p = some n := by
  simp [lookupPath, insertPath]

/-! ## The path monitor -/

/-- A tick after which the monitor goes on leaves the server `Running`. -/
theorem monitorTick_Running (sock : Server) (listen : Except String Listener) (w : World)
    (hrun : sock.Running) (h : (sock.monitorTick listen w).1 = Step.continue_) :
    (sock.monitorTick listen w).2.1.Running := by
  obtain ⟨hF, hS, hP, hfile, hl⟩ := hrun
  generalize hr : sock.monitorTick listen w = r at h ⊢
  unfold Server.monitorTick at hr
  simp only [] at hr
  repeat' split at hr
  all_goals subst hr
  all_goals first
    | (cases h; done)
    | exact And.intro hF (And.intro hS (And.intro hP (And.intro hfile hl)))
    | exact And.intro hF (And.intro hS (And.intro hP (And.intro hfile (Option.some_ne_none _))))

/-- C7: one tick of the path monitor of a server as `Run` starts it (a
`SocketFile` that names a file, a listener bound).  With the end flag set it
returns nil and leaves the server and the world as they are.  Otherwise, with
an entry at the socket path, the server (its listener too) and the filesystem
stay as they are, the only call is the `Stat`, and the loop goes on.  Otherwise
(no entry) it closes the old listener and binds at the same `SocketFile`; when
the bind succeeds it stores the new listener in the server, the socket is at
the path again, and the loop goes on. -/
theorem monitorTick_spec (sock : Server) (listen : Except String Listener) (w : World)
    (hfile : (filepath.Split sock.SocketFile).2 ≠ "") (hl : sock.listen ≠ none) :
    (sock.end_ = true → sock.monitorTick listen w = (.ret none, sock, w)) ∧
    (sock.end_ = false → lookupPath w.fs sock.SocketFile ≠ none →
      ∃ w1, sock.monitorTick listen w = (.continue_, sock, w1) ∧ w1.fs = w.fs ∧
        newCalls w w1 = [Call.Stat sock.SocketFile]) ∧
    (sock.end_ = false → lookupPath w.fs sock.SocketFile = none →
      ∃ old w1, sock.listen = some old ∧
        (sock.monitorTick listen w).2.2 = w1 ∧
        newCalls w w1 = [Call.Stat sock.SocketFile] ++
          (if (filepath.Split sock.SocketFile).1 = "" then []
           else [Call.MkdirAll (filepath.Split sock.SocketFile).1 0o755]) ++
          [Call.ListenerClose old, Call.Listen sock.SocketFile] ∧
        ∀ l, listen = .ok l →
          sock.monitorTick listen w = (.continue_, { sock with listen := some l }, w1) ∧
          lookupPath w1.fs sock.SocketFile = some Node.socket) := by
  refine ⟨?_, ?_, ?_⟩
  · intro he
    simp [Server.monitorTick, he]
  · intro he hp
    refine ⟨w.record (Call.Stat sock.SocketFile), ?_, rfl, ?_⟩
    · simp [Server.monitorTick, he, os.Stat, hp]
    · simp [newCalls, World.record]
  · intro he hp
    obtain ⟨old, hold⟩ := Option.ne_none_iff_exists'.mp hl
    refine ⟨old, (net.Listen sock.SocketFile listen
      ((if (filepath.Split sock.SocketFile).1 = "" then w.record (Call.Stat sock.SocketFile)
        else os.MkdirAll (filepath.Split sock.SocketFile).1 0o755
          (w.record (Call.Stat sock.SocketFile))).record (Call.ListenerClose old))).2,
      hold, ?_, ?_, ?_⟩
    · cases listen <;>
        simp [Server.monitorTick, he, os.Stat, hp, hold, net.Listen, hfile]
    · by_cases hd : (filepath.Split sock.SocketFile).1 = "" <;> cases listen <;>
        simp [newCalls, World.record, hd, os.MkdirAll, net.Listen]
    · intro l hok
      subst hok
      refine ⟨?_, lookupPath_insertPath _ _ _⟩
      simp [Server.monitorTick, he, os.Stat, hp, hold, net.Listen, hfile]

/-- Witness of C7: the running test server, whose socket file has been deleted,
rebinds at `server.sock` with the new listener `2`. -/
theorem monitorTick_spec_witness :
    (filepath.Split testServerRunning.SocketFile).2 ≠ "" ∧ testServerRunning.listen ≠ none ∧
    ∃ old w1, testServerRunning.listen = some old ∧
      (testServerRunning.monitorTick (.ok 2) emptyWorld).2.2 = w1 ∧
      newCalls emptyWorld w1 = [Call.Stat testServerRunning.SocketFile] ++
        (if (filepath.Split testServerRunning.SocketFile).1 = "" then []
         else [Call.MkdirAll (filepath.Split testServerRunning.SocketFile).1 0o755]) ++
        [Call.ListenerClose old, Call.Listen testServerRunning.SocketFile] ∧
      ∀ l, (.ok 2 : Except String Listener) = .ok l →
        testServerRunning.monitorTick (.ok 2) emptyWorld =
          (.continue_, { testServerRunning with listen := some l }, w1) ∧
        lookupPath w1.fs testServerRunning.SocketFile = some Node.socket :=
  ⟨testServerRunning_Running.2.2.2.1, testServerRunning_Running.2.2.2.2,
    (monitorTick_spec testServerRunning (.ok 2) emptyWorld testServerRunning_Running.2.2.2.1
      testServerRunning_Running.2.2.2.2).2.2 rfl rfl⟩

/-! ## Close and the end flag -/

/-- C8, as amended: `Close` twice leaves the same server and the same filesystem
as `Close` once: the end flag set, every other field and every other path as
before, and no entry at `SocketFile`, unless a directory that is not empty sits
there: that one stays, with the filesystem as it was.  `Close` has no result,
so neither call reports an error, although the second `os.Remove` fails. -/
theorem Close_idempotent (sock : Server) (w : World) :
    ((sock.Close w).1.Close (sock.Close w).2).1 = (sock.Close w).1 ∧
    ((sock.Close w).1.Close (sock.Close w).2).2.fs = (sock.Close w).2.fs ∧
    (sock.Close w).1 = { sock with end_ := true } ∧
    (nonEmptyDir w.fs sock.SocketFile = false →
      lookupPath (sock.Close w).2.fs sock.SocketFile = none) ∧
    (nonEmptyDir w.fs sock.SocketFile = true → (sock.Close w).2.fs = w.fs) ∧
    (∀ q, q ≠ sock.SocketFile → lookupPath (sock.Close w).2.fs q = lookupPath w.fs q) ∧
    (os.Remove (sock.Close w).1.SocketFile (sock.Close w).2).1 ≠ none := by
  have hfs : (sock.Close w).2.fs =
      if nonEmptyDir w.fs sock.SocketFile then w.fs else removePath w.fs sock.SocketFile :=
    Remove_fs sock.SocketFile w
  have hfs2 : ((sock.Close w).1.Close (sock.Close w).2).2.fs =
      if nonEmptyDir (sock.Close w).2.fs sock.SocketFile then (sock.Close w).2.fs
      else removePath (sock.Close w).2.fs sock.SocketFile :=
    Remove_fs sock.SocketFile (sock.Close w).2
  have hname : (sock.Close w).1.SocketFile = sock.SocketFile := rfl
  refine ⟨rfl, ?_, rfl, ?_, ?_, ?_, ?_⟩
  · rw [hfs2, hfs]
    by_cases hne : nonEmptyDir w.fs sock.SocketFile = true
    · simp [hne]
    · simp [hne, nonEmptyDir_removePath, removePath_idem]
  · intro hne
    rw [hfs]
    simp [hne, lookupPath_removePath]
  · intro hne
    rw [hfs]
    simp [hne]
  · intro q hq
    exact lookupPath_Remove_ne _ _ _ hq
  · rw [hname]
    unfold os.Remove
    rw [hfs]
    by_cases hne : nonEmptyDir w.fs sock.SocketFile = true
    · simp [hne]
    · simp [hne, nonEmptyDir_removePath, lookupPath_removePath]

/-- Witness of C8: `Close` removes the socket of the test server and leaves the
file next to it. -/
theorem Close_idempotent_witness :
    nonEmptyDir staleWorld.fs testServerRunning.SocketFile = false ∧
    lookupPath (testServerRunning.Close staleWorld).2.fs testServerRunning.SocketFile = none ∧
    lookupPath (testServerRunning.Close staleWorld).2.fs "notes.txt" =
      lookupPath staleWorld.fs "notes.txt" :=
  ⟨by decide,
    (Close_idempotent testServerRunning staleWorld).2.2.2.1 (by decide),
    (Close_idempotent testServerRunning staleWorld).2.2.2.2.2.1 "notes.txt" (by decide)⟩

/-- C8 as first stated fails at a directory `server.sock` that holds
`server.sock/child`: after one `Close`, and after two, the end flag is set and
the entry at `SocketFile` is still there. -/
theorem Close_leaves_nonempty_dir :
    (testServerRunning.Close dirWorld).1.end_ = true ∧
    lookupPath (testServerRunning.Close dirWorld).2.fs testServerRunning.SocketFile =
      some Node.dir ∧
    lookupPath ((testServerRunning.Close dirWorld).1.Close
      (testServerRunning.Close dirWorld).2).2.fs testServerRunning.SocketFile = some Node.dir :=
  ⟨rfl, by decide, by decide⟩

theorem Run_end (sock : Server) (env : Env) (w : World) :
    (sock.Run env w).2.1.end_ = sock.end_ := by
  unfold Server.Run
  simp only []
  repeat' split
  all_goals rfl

theorem monitorTick_end (sock : Server) (listen : Except String Listener) (w : World) :
    (sock.monitorTick listen w).2.1.end_ = sock.end_ := by
  unfold Server.monitorTick
  simp only []
  repeat' split
  all_goals rfl

theorem sockFileMonitor_end (sock : Server) (ticks : List (Except String Listener)) (w : World) :
    (sock.sockFileMonitor ticks w).2.2.1.end_ = sock.end_ := by
  induction ticks generalizing sock w with
  | nil => rfl
  | cons t ts ih =>
    unfold Server.sockFileMonitor
    have h := monitorTick_end sock t w
    split
    · rename_i s1 w1 heq
      rw [ih, ← h, heq]
    · rename_i e s1 w1 heq
      rw [← h, heq]
    · rename_i s1 w1 heq
      rw [← h, heq]

theorem monitorGoroutine_end (sock : Server) (ticks : List (Except String Listener))
    (w : World) : (sock.monitorGoroutine ticks w).2.1.end_ = sock.end_ := by
  have h := sockFileMonitor_end sock ticks w
  unfold Server.monitorGoroutine
  repeat' split
  all_goals simp_all

theorem acceptIter_of_end (sock : Server) (accept : Except String ConnId) (w : World)
    (h : sock.end_ = true) : sock.acceptIter accept w = (.break_, w) := by
  simp [Server.acceptIter, h]

theorem acceptLoop_of_end (sock : Server) (accepts : List (Except String ConnId)) (w : World)
    (h : sock.end_ = true) : sock.acceptLoop accepts w = (.done, w) := by
  cases accepts with
  | nil => simp [Server.acceptLoop, h]
  | cons a as => simp [Server.acceptLoop, acceptIter_of_end sock a w h]

theorem monitorTick_of_end (sock : Server) (listen : Except String Listener) (w : World)
    (h : sock.end_ = true) : sock.monitorTick listen w = (.ret none, sock, w) := by
  simp [Server.monitorTick, h]

theorem sockFileMonitor_of_end (sock : Server) (t : Except String Listener)
    (ts : List (Except String Listener)) (w : World) (h : sock.end_ = true) :
    sock.sockFileMonitor (t :: ts) w = (some none, .done, sock, w) := by
  simp [Server.sockFileMonitor, monitorTick_of_end sock t w h]

theorem receive_some (sock : Server) (deferred : Listener) (w : World) (v : Option Error)
    (s1 : Server) (w1 : World) (h : sock.receive deferred w = some (v, s1, w1)) :
    s1.end_ = sock.end_ ∧ w1 = w.record (Call.ListenerClose deferred) := by
  unfold Server.receive at h
  split at h
  · simp only [Option.some.injEq, Prod.mk.injEq] at h
    obtain ⟨_, h1, h2⟩ := h
    subst h1 h2
    exact ⟨rfl, rfl⟩
  · cases h

/-- An operation leaves the end flag as it is, but for `Close`, which sets it. -/
theorem Op.apply_end (op : Op) (st : Server × World) :
    (op.apply st).1.end_ = (st.1.end_ || op.isClose) := by
  obtain ⟨sock, w⟩ := st
  cases op with
  | Run env => simp [Op.apply, Op.isClose, Run_end]
  | Check dial readFile => simp [Op.apply, Op.isClose]
  | Close => simp [Op.apply, Op.isClose, Server.Close]
  | monitorTick listen => simp [Op.apply, Op.isClose, monitorTick_end]
  | monitorGoroutine ticks => simp [Op.apply, Op.isClose, monitorGoroutine_end]
  | acceptIter accept => simp [Op.apply, Op.isClose]
  | acceptLoop accepts => simp [Op.apply, Op.isClose]
  | receive deferred =>
    simp only [Op.apply, Op.isClose, Bool.or_false]
    split
    · rename_i v s1 w1 heq
      exact (receive_some sock deferred w v s1 w1 heq).1
    · rfl

theorem Check_accepts (sock : Server) (dial : Option String)
    (readFile : Except String (List Byte)) (w : World) :
    (sock.Check dial readFile w).2.log.filter Call.isAccept = w.log.filter Call.isAccept := by
  rcases Check_cases sock dial readFile w with
    ⟨_, h⟩ | ⟨_, _, h⟩ | ⟨_, _, h⟩ | ⟨_, _, h⟩
  all_goals
    rw [h]
    simp [World.record, Remove_log, List.filter_append, Call.isAccept]

theorem Run_accepts (sock : Server) (env : Env) (w : World) :
    (sock.Run env w).2.2.log.filter Call.isAccept = w.log.filter Call.isAccept := by
  have hc := Check_accepts { sock with err := some ⟨[]⟩ } env.dial env.readFile w
  unfold Server.Run
  simp only []
  split
  · rfl
  split
  · rfl
  split
  · rfl
  split
  · rename_i err w1 heq
    rw [heq] at hc
    exact hc
  · rename_i w1 heq
    rw [heq] at hc
    simp only at hc
    split
    · exact hc
    · cases env.listen with
      | error msg =>
        simp only [net.Listen]
        split <;> simp [World.record, os.MkdirAll, List.filter_append, Call.isAccept, hc]
      | ok l =>
        simp only [net.Listen]
        split <;> simp [World.record, os.MkdirAll, List.filter_append, Call.isAccept, hc]

theorem monitorGoroutine_accepts (sock : Server) (ticks : List (Except String Listener))
    (w : World) (h : sock.end_ = true) :
    (sock.monitorGoroutine ticks w).2.2.log.filter Call.isAccept =
      w.log.filter Call.isAccept := by
  cases ticks with
  | nil => simp [Server.monitorGoroutine, Server.sockFileMonitor]
  | cons t ts =>
    unfold Server.monitorGoroutine
    rw [sockFileMonitor_of_end sock t ts w h]
    simp only []
    repeat' split
    all_goals simp [World.record, List.filter_append, Call.isAccept]

/-- With the end flag set, no operation calls `Accept` or starts a handler. -/
theorem Op.apply_accepts (op : Op) (st : Server × World) (h : st.1.end_ = true) :
    (op.apply st).2.log.filter Call.isAccept = st.2.log.filter Call.isAccept := by
  obtain ⟨sock, w⟩ := st
  simp only at h
  cases op with
  | Run env => exact Run_accepts sock env w
  | Check dial readFile => exact Check_accepts sock dial readFile w
  | Close => simp [Op.apply, Server.Close, Remove_log, List.filter_append, Call.isAccept]
  | monitorTick listen => simp [Op.apply, monitorTick_of_end sock listen w h]
  | monitorGoroutine ticks => exact monitorGoroutine_accepts sock ticks w h
  | acceptIter accept => simp [Op.apply, acceptIter_of_end sock accept w h]
  | acceptLoop accepts => simp [Op.apply, acceptLoop_of_end sock accepts w h]
  | receive deferred =>
    simp only [Op.apply]
    split
    · rename_i v s1 w1 heq
      rw [(receive_some sock deferred w v s1 w1 heq).2]
      simp [World.record, List.filter_append, Call.isAccept]
    · rfl

theorem Op.run_end (ops : List Op) (st : Server × World) (h : st.1.end_ = true) :
    (Op.run ops st).1.end_ = true ∧
      (Op.run ops st).2.log.filter Call.isAccept = st.2.log.filter Call.isAccept := by
  induction ops generalizing st with
  | nil => exact ⟨h, rfl⟩
  | cons op ops ih =>
    have h1 : (op.apply st).1.end_ = true := by rw [Op.apply_end, h]; rfl
    have h2 := ih (op.apply st) h1
    simp only [Op.run, List.foldl_cons] at h2 ⊢
    exact ⟨h2.1, by rw [h2.2, Op.apply_accepts op st h]⟩

/-- C9: no operation resets the end flag: after any operation it is what it
was, or set if the operation is `Close`.  So after `Close`, whatever sequence
of operations follows on the same instance (a `Run` among them), the flag is
set, no `Accept` has been called and no handler started, the accept loop
leaves at its first check without calling `Accept`, and the monitor returns
nil at its first tick. -/
theorem end_flag_never_reset (sock : Server) (w : World) (ops : List Op) :
    (∀ (op : Op) (st : Server × World), (op.apply st).1.end_ = (st.1.end_ || op.isClose)) ∧
    (Op.run ops (sock.Close w)).1.end_ = true ∧
    (Op.run ops (sock.Close w)).2.log.filter Call.isAccept = w.log.filter Call.isAccept ∧
    (∀ accept, (Op.run ops (sock.Close w)).1.acceptIter accept (Op.run ops (sock.Close w)).2 =
      (.break_, (Op.run ops (sock.Close w)).2)) ∧
    (∀ accepts, (Op.run ops (sock.Close w)).1.acceptLoop accepts (Op.run ops (sock.Close w)).2 =
      (.done, (Op.run ops (sock.Close w)).2)) ∧
    (∀ listen, (Op.run ops (sock.Close w)).1.monitorTick listen (Op.run ops (sock.Close w)).2 =
      (.ret none, Op.run ops (sock.Close w))) ∧
    (∀ t ts, (Op.run ops (sock.Close w)).1.sockFileMonitor (t :: ts)
        (Op.run ops (sock.Close w)).2 = (some none, .done, Op.run ops (sock.Close w))) := by
  have h := Op.run_end ops (sock.Close w) rfl
  refine ⟨Op.apply_end, h.1, ?_, ?_, ?_, ?_, ?_⟩
  · rw [h.2]
    simp [Server.Close, Remove_log, List.filter_append, Call.isAccept]
  · intro a
    exact acceptIter_of_end _ a _ h.1
  · intro as
    exact acceptLoop_of_end _ as _ h.1
  · intro l
    exact monitorTick_of_end _ l _ h.1
  · intro t ts
    exact sockFileMonitor_of_end _ t ts _ h.1

/-! ## The connection handler and the client -/

theorem readLoop_okReads (chunks : List (List Byte)) (last : ReadResult) (err : Error)
    (rest : List ReadResult) (acc : List Byte) (hlast : last.err = some err) :
    readLoop (okReads chunks ++ last :: rest) acc = some (acc ++ chunks.flatten, err) := by
  induction chunks generalizing acc with
  | nil => simp [okReads, readLoop, hlast]
  | cons c cs ih =>
    have h := ih (acc ++ c)
    have hstep : readLoop (okReads (c :: cs) ++ last :: rest) acc =
        readLoop (okReads cs ++ last :: rest) (acc ++ c) := rfl
    rw [hstep, h, List.flatten_cons, List.append_assoc]

/-- Every read loop that ends has run through reads without error up to a
first read with an error. -/
theorem readLoop_some (reads : List ReadResult) (acc data : List Byte) (err : Error)
    (h : readLoop reads acc = some (data, err)) :
    ∃ chunks last rest, reads = okReads chunks ++ last :: rest ∧ last.err = some err ∧
      data = acc ++ chunks.flatten := by
  induction reads generalizing acc with
  | nil => simp [readLoop] at h
  | cons r rs ih =>
    obtain ⟨d, e⟩ := r
    cases e with
    | some e1 =>
      simp only [readLoop, Option.some.injEq, Prod.mk.injEq] at h
      exact ⟨[], ⟨d, some e1⟩, rs, rfl, by simp [h.2], by simp [h.1]⟩
    | none =>
      simp only [readLoop] at h
      obtain ⟨chunks, last, rest, h1, h2, h3⟩ := ih (acc ++ d) h
      refine ⟨d :: chunks, last, rest, ?_, h2, ?_⟩
      · simp [okReads, h1]
      · simp [h3]

theorem filter_isSuccess_Write (ws : List (List Byte)) :
    (ws.map Event.Write).filter Event.isSuccess = [] := by
  induction ws with
  | nil => rfl
  | cons x xs ih => simp [Event.isSuccess]

theorem filter_isFailed_Write (ws : List (List Byte)) :
    (ws.map Event.Write).filter Event.isFailed = [] := by
  induction ws with
  | nil => rfl
  | cons x xs ih => simp [Event.isFailed]

/-- C10: however the read loop of a handler ends (any reads without error, then
a read with error `err`), the handler of a server with both callbacks set calls
`Success` once, after the loop, with the bytes gathered so far (none, if no read
brought any), also after it has called `Failed` for an error other than
end-of-stream; `Failed` is called at most once, with that error, and before
`Success`. -/
theorem handler_always_Success (sock : Server) (chunks : List (List Byte)) (last : ReadResult)
    (err : Error) (rest : List ReadResult) (hF : sock.Failed ≠ none) (hS : sock.Success ≠ none)
    (hlast : last.err = some err) :
    ∃ f, sock.Success = some f ∧
      sock.handler (okReads chunks ++ last :: rest) =
        (.done, (if err = Error.EOF then [] else [Event.Failed err]) ++
          [Event.Success chunks.flatten] ++ (f chunks.flatten).map Event.Write ++
          [Event.Close]) ∧
      (sock.handler (okReads chunks ++ last :: rest)).2.filter Event.isSuccess =
        [Event.Success chunks.flatten] ∧
      (sock.handler (okReads chunks ++ last :: rest)).2.filter Event.isFailed =
        (if err = Error.EOF then [] else [Event.Failed err]) := by
  obtain ⟨g, hg⟩ := Option.ne_none_iff_exists'.mp hF
  obtain ⟨f, hf⟩ := Option.ne_none_iff_exists'.mp hS
  have key : sock.handler (okReads chunks ++ last :: rest) =
      (.done, (if err = Error.EOF then [] else [Event.Failed err]) ++
        [Event.Success chunks.flatten] ++ (f chunks.flatten).map Event.Write ++
        [Event.Close]) := by
    unfold Server.handler
    rw [readLoop_okReads chunks last err rest [] hlast]
    by_cases he : err = Error.EOF
    · simp [he, hf]
    · simp [he, hf, hg]
  refine ⟨f, hf, key, ?_, ?_⟩
  · rw [key]
    by_cases he : err = Error.EOF <;>
      simp [he, List.filter_append, filter_isSuccess_Write, Event.isSuccess, List.filter_cons]
  · rw [key]
    by_cases he : err = Error.EOF <;>
      simp [he, List.filter_append, filter_isFailed_Write, Event.isFailed, List.filter_cons]

/-- Witness of C10: the peer of the running test server sends two chunks and
then resets the connection. -/
theorem handler_always_Success_witness :
    testServerRunning.Failed ≠ none ∧ testServerRunning.Success ≠ none ∧
    reset.err = some (Error.sys "read unix server.sock->@: read: connection reset by peer") ∧
    ∃ f, testServerRunning.Success = some f ∧
      testServerRunning.handler (okReads [[72, 105], [44]] ++ reset :: []) =
        (.done, (if Error.sys "read unix server.sock->@: read: connection reset by peer" =
            Error.EOF then [] else
            [Event.Failed (Error.sys "read unix server.sock->@: read: connection reset by peer")]) ++
          [Event.Success [[72, 105], [44]].flatten] ++
          (f [[72, 105], [44]].flatten).map Event.Write ++ [Event.Close]) ∧
      (testServerRunning.handler (okReads [[72, 105], [44]] ++ reset :: [])).2.filter
          Event.isSuccess = [Event.Success [[72, 105], [44]].flatten] ∧
      (testServerRunning.handler (okReads [[72, 105], [44]] ++ reset :: [])).2.filter
          Event.isFailed =
        (if Error.sys "read unix server.sock->@: read: connection reset by peer" =
            Error.EOF then [] else
            [Event.Failed (Error.sys "read unix server.sock->@: read: connection reset by peer")]) :=
  ⟨testServerRunning_Running.1, testServerRunning_Running.2.1, rfl,
    handler_always_Success testServerRunning [[72, 105], [44]] reset _ []
      testServerRunning_Running.1 testServerRunning_Running.2.1 rfl⟩

/-- C5 at a connection that is reset after the message came in: the handler
calls `Failed` with the read error and then `Success` with the bytes read, and
the `Success` of the test server writes its reply. -/
theorem handler_Failed_then_Success :
    testServerRunning.handler [{ data := hiDataPlease, err := none }, reset] =
      (.done, [Event.Failed (Error.sys "read unix server.sock->@: read: connection reset by peer"),
        Event.Success hiDataPlease, Event.Write hello, Event.Close]) := by
  rfl

/-- C4: the round trip over a reliable stream.  Whatever chunks the request `m`
reaches the server in (reads of at most 128 bytes, then end-of-stream after the
client has closed its write side), the handler calls `Success` with `m` and
never `Failed`; and whatever chunks the bytes written by `Success` reach the
client in (reads of at most 1024 bytes, then end-of-stream), `Send` returns
those bytes and a nil error, having written `m` and closed its write side.
The two bounds are the sizes of the read buffers. -/
theorem round_trip (sock : Server) (f : List Byte → List (List Byte)) (sockfile : String)
    (m : List Byte) (req reply : List (List Byte))
    (hS : sock.Success = some f)
    (hreq : req.flatten = m) (_ : ∀ c ∈ req, c.length ≤ 128)
    (hreply : reply.flatten = (f m).flatten) (_ : ∀ c ∈ reply, c.length ≤ 1024) :
    sock.handler (okReads req ++ [eof]) =
      (.done, [Event.Success m] ++ (f m).map Event.Write ++ [Event.Close]) ∧
    Send sockfile m
        { dial := none, write := none, isUnixConn := true, closeWrite := none, reads := okReads reply ++ [eof] } =
      (some ((f m).flatten, none),
        [Event.Dial sockfile, Event.Write m, Event.CloseWrite, Event.Close]) := by
  constructor
  · unfold Server.handler
    rw [readLoop_okReads req eof Error.EOF [] [] rfl]
    simp [hS, hreq]
  · unfold Send
    simp only []
    rw [readLoop_okReads reply eof Error.EOF [] [] rfl]
    simp [hreply]

/-- Witness of C4: the exchange of the repository's test, the request split in
two chunks and the reply in one. -/
theorem round_trip_witness :
    testServer.Success = some (fun _ => [hello]) ∧
    [hiDataPlease.take 5, hiDataPlease.drop 5].flatten = hiDataPlease ∧
    (∀ c ∈ [hiDataPlease.take 5, hiDataPlease.drop 5], c.length ≤ 128) ∧
    [hello].flatten = [hello].flatten ∧ (∀ c ∈ [hello], c.length ≤ 1024) ∧
    testServer.handler (okReads [hiDataPlease.take 5, hiDataPlease.drop 5] ++ [eof]) =
      (.done, [Event.Success hiDataPlease] ++ [hello].map Event.Write ++ [Event.Close]) ∧
    Send "server.sock" hiDataPlease
        { dial := none, write := none, isUnixConn := true, closeWrite := none, reads := okReads [hello] ++ [eof] } =
      (some ([hello].flatten, none),
        [Event.Dial "server.sock", Event.Write hiDataPlease, Event.CloseWrite, Event.Close]) :=
  ⟨rfl, by decide, by decide, rfl, by decide,
    round_trip testServer (fun _ => [hello]) "server.sock" hiDataPlease
      [hiDataPlease.take 5, hiDataPlease.drop 5] [hello] rfl (by decide) (by decide) rfl
      (by decide)⟩

/-- C6 at the test server: `Run` starts it with listener `1`; the entry at
`server.sock` is then deleted and the rebind fails.  The tick returns the bind
error and leaves the listener nil; the goroutine around the monitor then calls
`Close` on that nil listener and panics, so nothing is sent on the error
channel and the receive in `Run` finds it empty. -/
theorem monitor_rebind_failure_panics :
    (testServer.Run freshStart emptyWorld).1 = RunResult.waiting 1 ∧
    (testServer.Run freshStart emptyWorld).2.1 = testServerRunning ∧
    testServerRunning.end_ = false ∧
    lookupPath (deleted "server.sock" (testServer.Run freshStart emptyWorld).2.2).fs
      testServerRunning.SocketFile = none ∧
    (testServerRunning.monitorTick bindFails
        (deleted "server.sock" (testServer.Run freshStart emptyWorld).2.2)).1 =
      Step.ret (some (Error.sys "listen unix server.sock: bind: permission denied")) ∧
    (testServerRunning.monitorTick bindFails
        (deleted "server.sock" (testServer.Run freshStart emptyWorld).2.2)).2.1.listen = none ∧
    (testServerRunning.monitorGoroutine [bindFails]
        (deleted "server.sock" (testServer.Run freshStart emptyWorld).2.2)).1 = Status.panic ∧
    (testServerRunning.monitorGoroutine [bindFails]
        (deleted "server.sock" (testServer.Run freshStart emptyWorld).2.2)).2.1.err =
      some ⟨[]⟩ ∧
    ((testServerRunning.monitorGoroutine [bindFails]
        (deleted "server.sock" (testServer.Run freshStart emptyWorld).2.2)).2.1.receive 1
      (testServerRunning.monitorGoroutine [bindFails]
        (deleted "server.sock" (testServer.Run freshStart emptyWorld).2.2)).2.2).isNone = true := by
  refine ⟨?_, ?_, ?_, ?_, ?_, ?_, ?_, ?_, ?_⟩ <;> rfl

end unixsock
